import Mathlib

/-!
Verification of the buildomat job-control plane against its source.

Strings manipulated character-by-character by the Rust code are embedded as
`List Char` (the character sequence of the Rust `String`); byte lengths
(`str::len`) are embedded as the sum of UTF-8 sizes of the characters.
Dropshot HTTP errors are embedded as `ApiError`, keeping the status code and
message of the source.
-/

namespace Buildomat

/-- HTTP client errors produced via `HttpError::for_client_error`:
we record the status code (400 Bad Request / 409 Conflict) and message. -/
inductive ApiError where
  | badRequest (msg : String)
  | conflict (msg : String)
deriving Repr, DecidableEq

instance {ε α : Type} [DecidableEq ε] [DecidableEq α] :
    DecidableEq (Except ε α) := fun x y =>
  match x, y with
  | .ok a, .ok b =>
    if h : a = b then .isTrue (by rw [h])
    else .isFalse (fun hc => h (by cases hc; rfl))
  | .error a, .error b =>
    if h : a = b then .isTrue (by rw [h])
    else .isFalse (fun hc => h (by cases hc; rfl))
  | .ok _, .error _ => .isFalse (fun hc => Except.noConfusion hc)
  | .error _, .ok _ => .isFalse (fun hc => Except.noConfusion hc)

/-- The `db::Job` record, with the fields read by the user API
(`src/server/src/api/user.rs`): `complete`, `failed`, `worker`,
`waiting`, `cancelled`, plus identifying fields. -/
structure Job where
  id : String
  owner : String
  name : String
  target : String
  complete : Bool
  failed : Bool
  worker : Option String
  waiting : Bool
  cancelled : Bool
deriving Repr, DecidableEq

/-- `format_job_state` from `src/server/src/api/user.rs`: derives the
externally visible job state string from the job record's fields. -/
def format_job_state (j : Job) : String :=
  if j.failed then "failed"
  else if j.complete then "completed"
  else if j.worker.isSome then "running"
  else if j.waiting then "waiting"
  else "queued"

/-- `JobOutputPublish::one_safe` from `src/server/src/api/user.rs`:
validates one publish identifier (series, version or name).  The Rust code
checks `(2..=48).contains(&n.chars().count())` and that every character is
an ASCII digit, ASCII letter, `-`, `_` or `.`. -/
def one_safe (n : List Char) : Except ApiError Unit :=
  if (2 ≤ n.length ∧ n.length ≤ 48)
      ∧ n.all (fun c =>
          c.isDigit || c.isAlpha || c == '-' || c == '_' || c == '.')
  then .ok ()
  else .error (.badRequest "invalid published file ID")

/-- `JobOutputPublish::safe`: validates the three identifiers in order. -/
structure JobOutputPublish where
  series : List Char
  version : List Char
  name : List Char

def JobOutputPublish.safe (b : JobOutputPublish) : Except ApiError Unit := do
  one_safe b.series
  one_safe b.version
  one_safe b.name

/-- `db::Database::job_cancel` as used by the cancel endpoint: sets the
job's `cancelled` flag. -/
def db_job_cancel (j : Job) : Job := { j with cancelled := true }

/-- The `job_cancel` endpoint (`POST /0/jobs/{job}/cancel`,
`src/server/src/api/user.rs`): a complete job yields a 409 Conflict before
the store's `job_cancel` is invoked; otherwise the store's `job_cancel`
runs on the job. -/
def job_cancel_endpoint (j : Job) : Except ApiError Job :=
  if j.complete then
    .error (.conflict "cannot cancel a job that is already complete")
  else
    .ok (db_job_cancel j)

/-- The size admission of `job_add_input_sync` (`POST /0/jobs/{job}/input`):
`add.size` is an `i64`; sizes below 0 or above `1024 * 1024 * 1024` are
rejected with 400, otherwise the size is converted to `u64` (`addsize`). -/
def sync_input_addsize (size : Int) : Except ApiError Nat :=
  if size < 0 ∨ size > 1024 * 1024 * 1024 then
    .error (.badRequest "size must be between 0 and 1073741824")
  else
    .ok size.toNat

/-- The admission checks of `job_add_input` (`POST /1/jobs/{job}/input`),
in source order: a name containing `/` is a 400; a size above the
configured per-input maximum is a 400; then, if the job is no longer
waiting and no commit with the supplied `commit_id` already exists for it,
a 409 Conflict.  `.ok ()` means the request proceeds to
`files.commit_file`, which (idempotently) reports the status of the
commit. -/
def job_add_input_checks (name : List Char) (size max : Nat)
    (waiting commit_exists : Bool) : Except ApiError Unit :=
  if '/' ∈ name then
    .error (.badRequest "name must not be a path")
  else if size > max then
    .error (.badRequest "input file size bigger than allowed maximum")
  else if !waiting && !commit_exists then
    .error (.conflict "cannot add inputs to a job that is not waiting")
  else
    .ok ()

/-- Structured output rule produced by `parse_output_rule` and stored in the
database (`db::CreateOutputRule`).  Field order follows the Rust struct
literal `{ rule, ignore, require_match, size_change_ok }`. -/
structure CreateOutputRule where
  rule : List Char
  ignore : Bool
  require_match : Bool
  size_change_ok : Bool
deriving Repr, DecidableEq

/-- The parser state `enum State` inside `parse_output_rule`. -/
inductive PState where
  | start
  | slashOrEquals
  | slashOrPercent
  | slash
  | rule
deriving Repr, DecidableEq

/-- The character loop of `parse_output_rule`
(`src/server/src/api/user.rs`), with the mutable locals
(`s`, `rule`, `ignore`, `size_change_ok`, `require_match`) threaded
explicitly; after the loop the accumulated rule must start with `/`.
(The source's `assert!` that `ignore` excludes the other flags cannot fire,
as proved below, and is not modelled as a failure.) -/
def parse_output_rule_loop :
    PState → List Char → Bool → Bool → Bool → List Char →
      Except ApiError CreateOutputRule
  | _, rule, ignore, size_change_ok, require_match, [] =>
    if rule.head? = some '/' then
      .ok ⟨rule, ignore, require_match, size_change_ok⟩
    else
      .error (.badRequest "output rule pattern must be absolute path")
  | .start, rule, ignore, size_change_ok, require_match, c :: cs =>
    if c = '/' then
      parse_output_rule_loop .rule (rule ++ [c]) ignore size_change_ok
        require_match cs
    else if c = '!' then
      parse_output_rule_loop .slash rule true size_change_ok require_match cs
    else if c = '=' then
      parse_output_rule_loop .slashOrPercent rule ignore size_change_ok true cs
    else if c = '%' then
      parse_output_rule_loop .slashOrEquals rule ignore true require_match cs
    else
      .error (.badRequest "wanted sigil/absolute path")
  | .slashOrEquals, rule, ignore, size_change_ok, require_match, c :: cs =>
    if c = '/' then
      parse_output_rule_loop .rule (rule ++ [c]) ignore size_change_ok
        require_match cs
    else if c = '=' then
      parse_output_rule_loop .slash rule ignore size_change_ok true cs
    else
      .error (.badRequest "unexpected in output rule")
  | .slashOrPercent, rule, ignore, size_change_ok, require_match, c :: cs =>
    if c = '/' then
      parse_output_rule_loop .rule (rule ++ [c]) ignore size_change_ok
        require_match cs
    else if c = '%' then
      parse_output_rule_loop .slash rule ignore true require_match cs
    else
      .error (.badRequest "unexpected in output rule")
  | .slash, rule, ignore, size_change_ok, require_match, c :: cs =>
    if c = '/' then
      parse_output_rule_loop .rule (rule ++ [c]) ignore size_change_ok
        require_match cs
    else
      .error (.badRequest "wanted slash in output rule")
  | .rule, rule, ignore, size_change_ok, require_match, c :: cs =>
    parse_output_rule_loop .rule (rule ++ [c]) ignore size_change_ok
      require_match cs

/-- `parse_output_rule` from `src/server/src/api/user.rs`. -/
def parse_output_rule (input : List Char) : Except ApiError CreateOutputRule :=
  parse_output_rule_loop .start [] false false false input

/-- The rule-rendering step of `format_job`
(`src/server/src/api/user.rs`): reconstruct the string form of a stored
output rule by emitting `!` when `ignore`, then `%` when `size_change_ok`,
then `=` when `require_match`, then the stored path. -/
def format_job_output_rule (jor : CreateOutputRule) : List Char :=
  (if jor.ignore then ['!'] else [])
    ++ (if jor.size_change_ok then ['%'] else [])
    ++ (if jor.require_match then ['='] else [])
    ++ jor.rule

/-- Byte length of a string given as its character sequence
(Rust `str::len`): the sum of the UTF-8 sizes of its characters. -/
def utf8Len (s : List Char) : Nat := (s.map Char.utf8Size).sum

/-- Total tag byte size computed by `job_submit`:
`tags.iter().map(|(n, v)| n.len() + v.len()).sum()`. -/
def tags_total_len (tags : List (List Char × List Char)) : Nat :=
  (tags.map (fun nv => utf8Len nv.1 + utf8Len nv.2)).sum

/-- The per-tag-name character check of `job_submit`: non-empty, and each
character an ASCII digit, ASCII lowercase letter, `.`, `_` or `-`. -/
def tag_name_ok (n : List Char) : Bool :=
  !n.isEmpty
    && n.all (fun c =>
        c.isDigit || c.isLower || c == '.' || c == '_' || c == '-')

/-- The validation sequence of `job_submit` (`POST /0/jobs`,
`src/server/src/api/user.rs`) up to target resolution, in source order:
more than 100 tasks, more than 25 inputs, more than 100 tags, total tag
name+value bytes above 131072, or an invalid tag name, each yield a 400.
`tasks` and `inputs` are the respective list lengths. -/
def job_submit_checks (tasks inputs : Nat)
    (tags : List (List Char × List Char)) : Except ApiError Unit :=
  if tasks > 100 then
    .error (.badRequest "too many tasks")
  else if inputs > 25 then
    .error (.badRequest "too many inputs")
  else if tags.length > 100 then
    .error (.badRequest "too many tags")
  else if tags_total_len tags > 131072 then
    .error (.badRequest "total size of all tags is larger than 128KB")
  else if tags.all (fun nv => tag_name_ok nv.1) then
    .ok ()
  else
    .error (.badRequest "tag names must be [0-9a-z._-]+")

/-- One stdout/stderr/console line of the GitHub check-run tail view
(`src/github/server/src/variety/basic.rs`, `run`): start from the stream
marker, push at most the first 100 characters of the payload, and append
`" [...]"` exactly when characters remain in the iterator. -/
def gh_tail_line (console : Bool) (payload : List Char) : List Char :=
  let mark := if console then "|C| ".data else "| ".data
  let line := mark ++ payload.take 100
  if (payload.drop 100).isEmpty then line else line ++ " [...]".data

/-- Step taken by the GitHub check-run `cancel` handler
(`src/github/server/src/variety/basic.rs`), as a function of the private
state flags, the presence of a backend buildomat job id, and that job's
reported state string. -/
inductive GhCancelStep where
  | noop
  | skipFinished
  | cancelBackend
  | failBeforeStart
deriving Repr, DecidableEq

/-- The control flow of `cancel` in `src/github/server/src/variety/basic.rs`:
return immediately if already complete or cancelled; with a backend job,
return early when its state reads `"complete"` or `"failed"`, otherwise
issue `job_cancel` against the backend; without a backend job, record the
failure locally. -/
def gh_cancel_step (p_complete p_cancelled : Bool) (buildomat_id : Option String)
    (job_state : String) : GhCancelStep :=
  if p_complete || p_cancelled then .noop
  else match buildomat_id with
    | some _ =>
      if job_state == "complete" || job_state == "failed" then .skipFinished
      else .cancelBackend
    | none => .failBeforeStart

/-- The sigil prefixes accepted by `parse_output_rule`: nothing, `!`, `=`,
`%`, `=%`, `%=`. -/
def sigil_options : List (List Char) :=
  [[], ['!'], ['='], ['%'], ['=', '%'], ['%', '=']]

/-! ## Helper lemmas about the output-rule parser -/

lemma parse_loop_rule (cs : List Char) : ∀ (acc : List Char) (i s r : Bool),
    parse_output_rule_loop .rule acc i s r cs =
      if (acc ++ cs).head? = some '/' then
        .ok ⟨acc ++ cs, i, r, s⟩
      else .error (.badRequest "output rule pattern must be absolute path") := by
  induction cs with
  | nil => intro acc i s r; simp [parse_output_rule_loop]
  | cons c cs ih =>
      intro acc i s r
      rw [parse_output_rule_loop, ih]
      simp

lemma parse_sigil_path (sig path : List Char) (hsig : sig ∈ sigil_options)
    (hpath : path.head? = some '/') :
    parse_output_rule (sig ++ path) =
      .ok ⟨path, sig.contains '!', sig.contains '=', sig.contains '%'⟩ := by
  obtain ⟨t, rfl⟩ : ∃ t, path = '/' :: t := by
    cases path with
    | nil => simp at hpath
    | cons a t => simp at hpath; exact ⟨t, by rw [hpath]⟩
  simp only [sigil_options, List.mem_cons, List.not_mem_nil, or_false] at hsig
  rcases hsig with rfl | rfl | rfl | rfl | rfl | rfl <;>
    simp [parse_output_rule, parse_output_rule_loop, parse_loop_rule,
      List.contains]

lemma parse_ok_shape (input : List Char) (r : CreateOutputRule)
    (h : parse_output_rule input = .ok r) :
    ∃ sig path, sig ∈ sigil_options ∧ path.head? = some '/' ∧
      input = sig ++ path ∧
      r = ⟨path, sig.contains '!', sig.contains '=', sig.contains '%'⟩ := by
  unfold parse_output_rule at h
  cases input with
  | nil => simp [parse_output_rule_loop] at h
  | cons c cs =>
    rw [parse_output_rule_loop] at h
    split at h
    · rename_i hc
      subst hc
      rw [parse_loop_rule] at h
      simp at h
      exact ⟨[], '/' :: cs, by simp [sigil_options], rfl, by simp,
        by simp [h.symm, List.contains]⟩
    · split at h
      · rename_i hc
        subst hc
        cases cs with
        | nil => simp [parse_output_rule_loop] at h
        | cons d ds =>
          rw [parse_output_rule_loop] at h
          split at h
          · rename_i hd
            subst hd
            rw [parse_loop_rule] at h
            simp at h
            exact ⟨['!'], '/' :: ds, by simp [sigil_options], rfl, by simp,
              by simp [h.symm, List.contains]⟩
          · exact absurd h (by simp)
      · split at h
        · rename_i hc
          subst hc
          cases cs with
          | nil => simp [parse_output_rule_loop] at h
          | cons d ds =>
            rw [parse_output_rule_loop] at h
            split at h
            · rename_i hd
              subst hd
              rw [parse_loop_rule] at h
              simp at h
              exact ⟨['='], '/' :: ds, by simp [sigil_options], rfl, by simp,
                by simp [h.symm, List.contains]⟩
            · split at h
              · rename_i hd
                subst hd
                cases ds with
                | nil => simp [parse_output_rule_loop] at h
                | cons e es =>
                  rw [parse_output_rule_loop] at h
                  split at h
                  · rename_i he
                    subst he
                    rw [parse_loop_rule] at h
                    simp at h
                    exact ⟨['=', '%'], '/' :: es, by simp [sigil_options],
                      rfl, by simp, by simp [h.symm, List.contains]⟩
                  · exact absurd h (by simp)
              · exact absurd h (by simp)
        · split at h
          · rename_i hc
            subst hc
            cases cs with
            | nil => simp [parse_output_rule_loop] at h
            | cons d ds =>
              rw [parse_output_rule_loop] at h
              split at h
              · rename_i hd
                subst hd
                rw [parse_loop_rule] at h
                simp at h
                exact ⟨['%'], '/' :: ds, by simp [sigil_options], rfl,
                  by simp, by simp [h.symm, List.contains]⟩
              · split at h
                · rename_i hd
                  subst hd
                  cases ds with
                  | nil => simp [parse_output_rule_loop] at h
                  | cons e es =>
                    rw [parse_output_rule_loop] at h
                    split at h
                    · rename_i he
                      subst he
                      rw [parse_loop_rule] at h
                      simp at h
                      exact ⟨['%', '='], '/' :: es, by simp [sigil_options],
                        rfl, by simp, by simp [h.symm, List.contains]⟩
                    · exact absurd h (by simp)
                · exact absurd h (by simp)
          · exact absurd h (by simp)

/-! ## Claim theorems -/

/-- C1: the externally visible job state string is derived with the exact
precedence failed, completed, running, waiting, queued: each state string
is produced exactly under the stated combination of fields, so a failed
and complete job reports "failed", and a complete job with a worker
assigned reports "completed". -/
theorem format_job_state_precedence (j : Job) :
    (format_job_state j = "failed" ↔ j.failed = true)
  ∧ (format_job_state j = "completed" ↔ j.failed = false ∧ j.complete = true)
  ∧ (format_job_state j = "running" ↔
      j.failed = false ∧ j.complete = false ∧ j.worker.isSome = true)
  ∧ (format_job_state j = "waiting" ↔
      j.failed = false ∧ j.complete = false ∧ j.worker = none ∧
        j.waiting = true)
  ∧ (format_job_state j = "queued" ↔
      j.failed = false ∧ j.complete = false ∧ j.worker = none ∧
        j.waiting = false) := by
  obtain ⟨id, owner, name, target, complete, failed, worker, waiting,
    cancelled⟩ := j
  cases failed <;> cases complete <;> cases worker <;> cases waiting <;>
    simp [format_job_state]

/-- C2: the output-rule parser accepts exactly the strings made of an
optional sigil from {"", "!", "=", "%", "=%", "%="} followed by a path
starting with '/', setting ignore for '!', require_match for '=' and
size_change_ok for '%'; the sigil pairs "==", "%%", "!!", "!=", "=!",
"!%", "%!" are rejected for any continuation, as is the empty string. -/
theorem parse_output_rule_characterization :
    (∀ sig path, sig ∈ sigil_options → path.head? = some '/' →
      parse_output_rule (sig ++ path) =
        .ok ⟨path, sig.contains '!', sig.contains '=', sig.contains '%'⟩)
  ∧ (∀ input r, parse_output_rule input = .ok r →
      ∃ sig path, sig ∈ sigil_options ∧ path.head? = some '/' ∧
        input = sig ++ path ∧
        r = ⟨path, sig.contains '!', sig.contains '=', sig.contains '%'⟩)
  ∧ (∀ rest, (parse_output_rule ('=' :: '=' :: rest)).isOk = false)
  ∧ (∀ rest, (parse_output_rule ('%' :: '%' :: rest)).isOk = false)
  ∧ (∀ rest, (parse_output_rule ('!' :: '!' :: rest)).isOk = false)
  ∧ (∀ rest, (parse_output_rule ('!' :: '=' :: rest)).isOk = false)
  ∧ (∀ rest, (parse_output_rule ('=' :: '!' :: rest)).isOk = false)
  ∧ (∀ rest, (parse_output_rule ('!' :: '%' :: rest)).isOk = false)
  ∧ (∀ rest, (parse_output_rule ('%' :: '!' :: rest)).isOk = false)
  ∧ (parse_output_rule []).isOk = false := by
  refine ⟨parse_sigil_path, parse_ok_shape, ?_, ?_, ?_, ?_, ?_, ?_, ?_, ?_⟩
  all_goals
    first
    | exact fun rest => by
        simp [parse_output_rule, parse_output_rule_loop, Except.isOk,
          Except.toBool]
    | simp [parse_output_rule, parse_output_rule_loop, Except.isOk,
        Except.toBool]

/-- Witness for C2 at a concrete accepted input. -/
theorem parse_output_rule_characterization_witness :
    parse_output_rule ("%=/tmp/a".data) =
      .ok ⟨"/tmp/a".data, false, true, true⟩ := by
  have h := parse_output_rule_characterization.1 ['%', '='] ("/tmp/a".data)
    (by decide) (by decide)
  simpa using h

/-- C10: parsing the `format_job` rendering of any parser output yields
that output back: render then parse is the identity on structured rules
produced by `parse_output_rule`, even when the rendered sigil order
differs from the submitted one. -/
theorem parse_format_roundtrip (input : List Char) (r : CreateOutputRule)
    (h : parse_output_rule input = .ok r) :
    parse_output_rule (format_job_output_rule r) = .ok r := by
  obtain ⟨sig, path, hsig, hpath, -, rfl⟩ := parse_ok_shape input r h
  simp only [sigil_options, List.mem_cons, List.not_mem_nil, or_false] at hsig
  rcases hsig with rfl | rfl | rfl | rfl | rfl | rfl
  · simpa [format_job_output_rule, List.contains] using
      parse_sigil_path [] path (by simp [sigil_options]) hpath
  · simpa [format_job_output_rule, List.contains] using
      parse_sigil_path ['!'] path (by simp [sigil_options]) hpath
  · simpa [format_job_output_rule, List.contains] using
      parse_sigil_path ['='] path (by simp [sigil_options]) hpath
  · simpa [format_job_output_rule, List.contains] using
      parse_sigil_path ['%'] path (by simp [sigil_options]) hpath
  · simpa [format_job_output_rule, List.contains] using
      parse_sigil_path ['%', '='] path (by simp [sigil_options]) hpath
  · simpa [format_job_output_rule, List.contains] using
      parse_sigil_path ['%', '='] path (by simp [sigil_options]) hpath

/-- Witness for C10 at the concrete submission "=%/x". -/
theorem parse_format_roundtrip_witness :
    parse_output_rule (format_job_output_rule ⟨"/x".data, false, true, true⟩) =
      .ok ⟨"/x".data, false, true, true⟩ :=
  parse_format_roundtrip ("=%/x".data) _ (by decide)

lemma utf8Len_replicate (n : Nat) (c : Char) :
    utf8Len (List.replicate n c) = n * c.utf8Size := by
  simp [utf8Len, List.map_replicate, List.sum_replicate, smul_eq_mul]

lemma tags_total_len_singleton (n v : List Char) :
    tags_total_len [(n, v)] = utf8Len n + utf8Len v := by
  simp [tags_total_len]

/-- C3 counterexample: a submission whose tags total exactly 131072 bytes
passes all of `job_submit`'s validation checks, so the claim that any
total not strictly below 131072 is rejected is false. -/
theorem job_submit_tag_size_at_limit_accepted :
    tags_total_len [(['a'], List.replicate 131071 'a')] = 131072
  ∧ job_submit_checks 0 0 [(['a'], List.replicate 131071 'a')] = .ok () := by
  have ha : Char.utf8Size 'a' = 1 := by decide
  have h1 : utf8Len (List.replicate 131071 'a') = 131071 := by
    rw [utf8Len_replicate, ha, Nat.mul_one]
  have ha1 : utf8Len ['a'] = 1 := by simp [utf8Len, ha]
  have h2 : tags_total_len [(['a'], List.replicate 131071 'a')] = 131072 := by
    rw [tags_total_len_singleton, h1, ha1]
  refine ⟨h2, ?_⟩
  unfold job_submit_checks
  rw [h2]
  rw [if_neg (by decide), if_neg (by decide), if_neg (by decide),
    if_neg (by decide), if_pos (by decide)]

/-- C3 (amended): `job_submit` rejects with a 400 whenever the total tag
name+value bytes strictly exceed 131072, and every submission that passes
validation has total tag bytes at most 131072 (a total of exactly 131072
is accepted). -/
theorem job_submit_tag_size_checks (tasks inputs : Nat)
    (tags : List (List Char × List Char)) :
    (tags_total_len tags > 131072 →
      ∃ msg, job_submit_checks tasks inputs tags = .error (.badRequest msg))
  ∧ (job_submit_checks tasks inputs tags = .ok () →
      tags_total_len tags ≤ 131072) := by
  constructor
  · intro hgt
    unfold job_submit_checks
    split_ifs with h1 h2 h3 <;> exact ⟨_, rfl⟩
  · intro hok
    unfold job_submit_checks at hok
    split_ifs at hok with h1 h2 h3 h4 h5
    exact Nat.not_lt.mp h4

/-- Witness for C3's amended theorem: tags totalling 131073 bytes are
rejected. -/
theorem job_submit_tag_size_checks_witness :
    ∃ msg, job_submit_checks 0 0 [(['a'], List.replicate 131072 'a')] =
      .error (.badRequest msg) := by
  apply (job_submit_tag_size_checks 0 0 _).1
  have ha : Char.utf8Size 'a' = 1 := by decide
  have h1 : utf8Len (List.replicate 131072 'a') = 131072 := by
    rw [utf8Len_replicate, ha, Nat.mul_one]
  have ha1 : utf8Len ['a'] = 1 := by simp [utf8Len, ha]
  have h2 : tags_total_len [(['a'], List.replicate 131072 'a')] = 131073 := by
    rw [tags_total_len_singleton, h1, ha1]
  rw [h2]
  norm_num

/-- C4: once a job has left the waiting state, the asynchronous input
endpoint rejects the request with a 409 Conflict unless the supplied
commit id is already known for the job, in which case the request
proceeds (to `commit_file`, which reports the prior commit's status). -/
theorem job_add_input_not_waiting (name : List Char) (size max : Nat)
    (hn : '/' ∉ name) (hs : size ≤ max) :
    (∀ commit_exists : Bool,
      job_add_input_checks name size max false commit_exists =
        if commit_exists then .ok ()
        else .error (.conflict "cannot add inputs to a job that is not waiting"))
  ∧ (∀ commit_exists : Bool,
      job_add_input_checks name size max true commit_exists = .ok ()) := by
  constructor
  · intro ce
    cases ce <;> simp [job_add_input_checks, hn, Nat.not_lt.mpr hs]
  · intro ce
    simp [job_add_input_checks, hn, Nat.not_lt.mpr hs]

/-- Witness for C4 at a concrete request. -/
theorem job_add_input_not_waiting_witness :
    job_add_input_checks ("file.tar".data) 10 1000 false false =
      .error (.conflict "cannot add inputs to a job that is not waiting") := by
  have h := (job_add_input_not_waiting ("file.tar".data) 10 1000
    (by decide) (by norm_num)).1 false
  simpa using h

/-- C5: the synchronous input endpoint accepts a size of exactly
1073741824 (1 GiB) and rejects 1073741825 and every negative size with a
400 Bad Request. -/
theorem sync_input_size_boundary :
    sync_input_addsize 1073741824 = .ok 1073741824
  ∧ sync_input_addsize 1073741825 =
      .error (.badRequest "size must be between 0 and 1073741824")
  ∧ ∀ z : Int, z < 0 →
      sync_input_addsize z =
        .error (.badRequest "size must be between 0 and 1073741824") := by
  refine ⟨?_, ?_, ?_⟩
  · unfold sync_input_addsize
    rw [if_neg (by norm_num)]
    decide
  · unfold sync_input_addsize
    rw [if_pos (by norm_num)]
  · intro z hz
    unfold sync_input_addsize
    rw [if_pos (Or.inl hz)]

/-- Witness for C5 at size -1. -/
theorem sync_input_size_boundary_witness :
    sync_input_addsize (-1) =
      .error (.badRequest "size must be between 0 and 1073741824") :=
  sync_input_size_boundary.2.2 (-1) (by norm_num)

/-- C6: a publish identifier is accepted exactly when its character count
is between 2 and 48 and every character is an ASCII letter, ASCII digit,
'-', '_' or '.'; any identifier containing '/' is rejected with a 400. -/
theorem one_safe_characterization (n : List Char) :
    (one_safe n = .ok () ↔
      (2 ≤ n.length ∧ n.length ≤ 48 ∧
        ∀ c ∈ n, c.isDigit = true ∨ c.isAlpha = true ∨
          c = '-' ∨ c = '_' ∨ c = '.'))
  ∧ ('/' ∈ n → one_safe n = .error (.badRequest "invalid published file ID")) := by
  have key : ((2 ≤ n.length ∧ n.length ≤ 48)
        ∧ n.all (fun c =>
            c.isDigit || c.isAlpha || c == '-' || c == '_' || c == '.') = true)
      ↔ (2 ≤ n.length ∧ n.length ≤ 48 ∧
          ∀ c ∈ n, c.isDigit = true ∨ c.isAlpha = true ∨
            c = '-' ∨ c = '_' ∨ c = '.') := by
    simp only [List.all_eq_true, Bool.or_eq_true, beq_iff_eq, and_assoc]
    constructor
    · rintro ⟨ha2, ha48, hall⟩
      exact ⟨ha2, ha48, fun c hc => by have := hall c hc; tauto⟩
    · rintro ⟨ha2, ha48, hall⟩
      exact ⟨ha2, ha48, fun c hc => by have := hall c hc; tauto⟩
  constructor
  · unfold one_safe
    split_ifs with h
    · exact iff_of_true rfl (key.mp h)
    · exact iff_of_false (by simp) (fun hr => h (key.mpr hr))
  · intro hmem
    unfold one_safe
    rw [if_neg]
    intro hc
    have hall := hc.2
    rw [List.all_eq_true] at hall
    simpa using hall '/' hmem

/-- Witness for C6 at a concrete identifier containing '/'. -/
theorem one_safe_characterization_witness :
    one_safe ("a/b".data) = .error (.badRequest "invalid published file ID") :=
  (one_safe_characterization ("a/b".data)).2 (by decide)

/-- C7: cancelling a complete job yields a 409 Conflict before the
store's `job_cancel` runs, leaving the job unchanged; cancelling a job
that is not complete invokes the store's `job_cancel` on it. -/
theorem job_cancel_completed_conflict (j : Job) :
    (j.complete = true →
      job_cancel_endpoint j =
        .error (.conflict "cannot cancel a job that is already complete"))
  ∧ (j.complete = false →
      job_cancel_endpoint j = .ok (db_job_cancel j)) := by
  constructor <;> intro h <;> simp [job_cancel_endpoint, h]

/-- Witness for C7 at a concrete complete job. -/
theorem job_cancel_completed_conflict_witness :
    job_cancel_endpoint ⟨"j", "o", "n", "t", true, false, none, false, false⟩ =
      .error (.conflict "cannot cancel a job that is already complete") :=
  (job_cancel_completed_conflict _).1 rfl

/-- C8: a tail-view line holds, after the stream marker, exactly the
first min(100, length) characters of the payload, with " [...]" appended
precisely when the payload exceeds 100 characters; a payload of exactly
100 characters is rendered whole with no suffix. -/
theorem gh_tail_line_truncation (console : Bool) (payload : List Char) :
    (gh_tail_line console payload =
      (if console then "|C| ".data else "| ".data)
        ++ payload.take (min 100 payload.length)
        ++ (if 100 < payload.length then " [...]".data else []))
  ∧ (payload.length = 100 →
      gh_tail_line console payload =
        (if console then "|C| ".data else "| ".data) ++ payload) := by
  have main : gh_tail_line console payload =
      (if console then "|C| ".data else "| ".data)
        ++ payload.take (min 100 payload.length)
        ++ (if 100 < payload.length then " [...]".data else []) := by
    simp only [gh_tail_line]
    rcases le_or_lt payload.length 100 with hl | hl
    · rw [if_pos (by simp [List.isEmpty_iff, List.drop_eq_nil_iff]; omega),
        min_eq_right hl, List.take_length, List.take_of_length_le hl,
        if_neg (not_lt.mpr hl)]
      simp
    · rw [if_neg (by simp [List.isEmpty_iff, List.drop_eq_nil_iff]; omega),
        min_eq_left hl.le, if_pos hl]
  refine ⟨main, fun h100 => ?_⟩
  rw [main, h100]
  have ht : List.take 100 payload = payload :=
    List.take_of_length_le (le_of_eq h100)
  simp [ht]

/-- Witness for C8 at a payload of exactly 100 characters. -/
theorem gh_tail_line_truncation_witness :
    gh_tail_line false (List.replicate 100 'x') =
      "| ".data ++ List.replicate 100 'x' :=
  (gh_tail_line_truncation false (List.replicate 100 'x')).2 (by simp)

/-- C9: the job state projection never yields "complete", yet the GitHub
cancel handler's early return only checks for "complete" and "failed";
hence for any complete, non-failed job (state "completed") the handler
does not return early and still issues a backend cancel. -/
theorem gh_cancel_completed_state_mismatch (j : Job) (bid : String)
    (hc : j.complete = true) (hf : j.failed = false) :
    (∀ j' : Job, format_job_state j' ≠ "complete")
  ∧ format_job_state j = "completed"
  ∧ gh_cancel_step false false (some bid) (format_job_state j) =
      .cancelBackend := by
  have hstate : format_job_state j = "completed" := by
    simp [format_job_state, hc, hf]
  refine ⟨?_, hstate, ?_⟩
  · intro j'
    unfold format_job_state
    split_ifs <;> simp
  · rw [hstate]
    rfl

/-- Witness for C9 at a concrete completed job. -/
theorem gh_cancel_completed_state_mismatch_witness :
    gh_cancel_step false false (some "job1")
      (format_job_state ⟨"j", "o", "n", "t", true, false, none, false, false⟩) =
      .cancelBackend :=
  (gh_cancel_completed_state_mismatch
    ⟨"j", "o", "n", "t", true, false, none, false, false⟩ "job1" rfl rfl).2.2

end Buildomat
